import Mathlib

/-!
Verification of the earnings-calendar scraper (`src/scraper.py`).

The Python source is shallowly embedded: pure string/number manipulation is
translated to Lean functions over `List Char` and `ℚ`; the Selenium-facing
parts (navigation, DOM access, the browser driver) are modelled by explicit
data (rows of cells) and oracles describing the outcome of each external
interaction; exceptions are modelled with `Except`/`Option` and explicit
outcome constructors.  Python `float` values are modelled by `PyNum`: an
exact rational for finite values plus the IEEE special values `inf`,
`-inf`, `nan`, which Python's `float()` constructor produces for inputs
such as `"inf"`, `"infinity"`, `"nan"` (decimal literals are modelled with
exact rational semantics).  Rational values are always constructed through
`mkRat`/`Rat.divInt` on integer arithmetic so that every definition
evaluates by kernel reduction.
-/

namespace EarningsScraper

/-- Model of a Python `float` value: a finite value (exact rational
semantics) or one of the IEEE special values that `float(str)` can
produce (`float("inf")`, `float("-inf")`, `float("nan")`). -/
inductive PyNum where
  | finite (q : ℚ)
  | inf
  | ninf
  | nan
deriving DecidableEq

/-- `true` exactly on finite float values. -/
def PyNum.isFinite : PyNum → Bool
  | .finite _ => true
  | _ => false

/-- Multiplication of a Python float by the positive multiplier `10 ^ e`
(the source's `1e9`/`1e6`/`1e3` magnitude multipliers, and `1 = 10 ^ 0`),
computed on the numerator so that it evaluates by kernel reduction:
`inf * 10^e = inf`, `-inf * 10^e = -inf`, `nan * 10^e = nan` as in IEEE
arithmetic. -/
def PyNum.mulPow10 (e : Nat) : PyNum → PyNum
  | .finite q => .finite (Rat.divInt (q.num * (10 : Int) ^ e) (q.den : Int))
  | .inf => .inf
  | .ninf => .ninf
  | .nan => .nan

/-- ASCII decimal digit test (the digits accepted by Python's `float`). -/
def isDigitCh (c : Char) : Bool := '0' ≤ c && c ≤ '9'

/-- Numeric value of an ASCII digit. -/
def digitVal (c : Char) : Nat := c.toNat - 48

/-- Whitespace as stripped by Python `str.strip()` / `float()`
(ASCII whitespace; the claims involve no exotic Unicode spaces). -/
def isSpaceCh (c : Char) : Bool :=
  c = ' ' || c = '\t' || c = '\n' || c = '\r' || c = '\x0b' || c = '\x0c'

/-- `str.strip()`: drop leading and trailing whitespace. -/
def trimChars (cs : List Char) : List Char :=
  ((cs.dropWhile isSpaceCh).reverse.dropWhile isSpaceCh).reverse

/-- `str.upper()` on ASCII content, character by character. -/
def upperChars (cs : List Char) : List Char := cs.map Char.toUpper

/-- Continuation of a digit group after its first digit, enforcing
PEP 515 underscore placement (an underscore only between two digits):
accumulates the value and the count of digits seen so far. -/
def digitGroupAux (acc : Nat) (n : Nat) : List Char → Option (Nat × Nat)
  | [] => some (acc, n)
  | '_' :: c :: rest =>
      if isDigitCh c then digitGroupAux (acc * 10 + digitVal c) (n + 1) rest else none
  | ['_'] => none
  | c :: rest =>
      if isDigitCh c then digitGroupAux (acc * 10 + digitVal c) (n + 1) rest else none

/-- A digit group of Python's `float` grammar: `digit (["_"] digit)*`.
Returns the value and the number of digits, or `none` if the characters
are not a valid group. -/
def parseDigitGroup : List Char → Option (Nat × Nat)
  | [] => none
  | c :: rest => if isDigitCh c then digitGroupAux (digitVal c) 1 rest else none

/-- Split at the first `e`/`E` (exponent marker of the `float` grammar). -/
def splitOnE : List Char → List Char × Option (List Char)
  | [] => ([], none)
  | c :: rest =>
      if c = 'e' || c = 'E' then ([], some rest)
      else
        let (a, b) := splitOnE rest
        (c :: a, b)

/-- Split at the first `.` (decimal point of the `float` grammar). -/
def splitOnDot : List Char → List Char × Option (List Char)
  | [] => ([], none)
  | c :: rest =>
      if c = '.' then ([], some rest)
      else
        let (a, b) := splitOnDot rest
        (c :: a, b)

/-- The mantissa of Python's `float` grammar: `digits`, `digits "." [digits]`
or `"." digits`.  Returns `(m, scale)` representing the exact value
`m / 10 ^ scale`. -/
def parseMantissa (cs : List Char) : Option (Nat × Nat) :=
  match splitOnDot cs with
  | (ip, none) => (parseDigitGroup ip).map (fun v => (v.1, 0))
  | ([], some []) => none
  | ([], some fp) => (parseDigitGroup fp).map (fun v => (v.1, v.2))
  | (ip, some []) => (parseDigitGroup ip).map (fun v => (v.1, 0))
  | (ip, some fp) =>
      match parseDigitGroup ip, parseDigitGroup fp with
      | some iv, some fv => some (iv.1 * 10 ^ fv.2 + fv.1, fv.2)
      | _, _ => none

/-- The exponent part of Python's `float` grammar: `["+"|"-"] digits`. -/
def parseExp : List Char → Option Int
  | '+' :: rest => (parseDigitGroup rest).map (fun v => (v.1 : Int))
  | '-' :: rest => (parseDigitGroup rest).map (fun v => -(v.1 : Int))
  | cs => (parseDigitGroup cs).map (fun v => (v.1 : Int))

/-- The exact rational value of a parsed decimal literal: sign `neg`,
mantissa `m / 10 ^ scale`, decimal exponent `ev`; computed on integers
and assembled with a single `mkRat`/cast so that it kernel-evaluates. -/
def decValue (neg : Bool) (m scale : Nat) (ev : Int) : ℚ :=
  let n : Int := if neg then -(m : Int) else (m : Int)
  match ev - (scale : Int) with
  | .ofNat k => ((n * (10 : Int) ^ k : Int) : ℚ)
  | .negSucc k => mkRat n (10 ^ (k + 1))

/-- Python's `float(str)` constructor on the characters of the string:
strips whitespace, reads an optional sign, then either one of the special
words `inf`/`infinity`/`nan` (case-insensitive) or a decimal literal with
optional exponent.  Invalid input (`ValueError` in Python) is `none`. -/
def pyFloatChars (cs0 : List Char) : Option PyNum :=
  let cs := trimChars cs0
  let signBody : Bool × List Char :=
    match cs with
    | '+' :: r => (false, r)
    | '-' :: r => (true, r)
    | r => (false, r)
  let neg := signBody.1
  let body := signBody.2
  let up := upperChars body
  if up = "INF".data || up = "INFINITY".data then
    some (if neg then .ninf else .inf)
  else if up = "NAN".data then some .nan
  else
    match splitOnE body with
    | (m, none) => (parseMantissa m).map (fun v => .finite (decValue neg v.1 v.2 0))
    | (m, some e) =>
        match parseMantissa m, parseExp e with
        | some v, some ev => some (.finite (decValue neg v.1 v.2 ev))
        | _, _ => none

/-- The "not available" tokens of `_parse_financial_number`
(`['N/A', 'TBD', '--', '']` in the source). -/
def naTokens : List (List Char) := ["N/A".data, "TBD".data, "--".data, "".data]

/-- `text.replace('$','').replace(',','').replace('(','-').replace(')','')`:
the replacements of `_parse_financial_number`, all on single characters. -/
def cleanChars (cs : List Char) : List Char :=
  cs.filterMap (fun c =>
    if c = '$' || c = ',' || c = ')' then none
    else if c = '(' then some '-' else some c)

/-- `cleaned.upper().endswith(suffix)` for a single uppercase letter. -/
def lastUpperIs (cs : List Char) (u : Char) : Bool :=
  match cs.getLast? with
  | some c => c.toUpper = u
  | none => false

/-- `EarningsCalendarScraper._parse_financial_number` (src/scraper.py:359-388).
Empty text or a case-folded "not available" token is `None`; currency
symbols and thousands separators are removed and parentheses turned into a
leading minus; a trailing `B`/`M`/`K` (checked on the uppercased text) is
removed and applied as a `1e9`/`1e6`/`1e3` multiplier (stored here as the
exponent `9`/`6`/`3`/`0` of a power of ten); the remainder goes through
`float()`; a `ValueError` is caught and gives `None`.  The function is a
total Lean function, mirroring that the Python body catches every
exception its operations can raise. -/
def parse_financial_number (text : String) : Option PyNum :=
  let cs := text.data
  if cs = [] || upperChars cs ∈ naTokens then none
  else
    let cleaned := cleanChars cs
    let mc : Nat × List Char :=
      if lastUpperIs cleaned 'B' then (9, cleaned.dropLast)
      else if lastUpperIs cleaned 'M' then (6, cleaned.dropLast)
      else if lastUpperIs cleaned 'K' then (3, cleaned.dropLast)
      else (0, cleaned)
    (pyFloatChars (trimChars mc.2)).map (PyNum.mulPow10 mc.1)

/-! ## DOM data model

A table row as the Row Parser observes it: an ordered sequence of cells,
each with its text and, if the cell contains an `<a>` element, that
element's `title` and `aria-label` attributes (`get_attribute` returns
`None` for an absent attribute; `find_element` raising
`NoSuchElementException` for a missing `<a>` is the `none` case of
`Cell.link`, caught in the source by the inner `except: pass`). -/

/-- The first `<a>` element inside a cell: its `title` and `aria-label`
attribute values (`none` models `get_attribute` returning `None`). -/
structure AnchorEl where
  title : Option String
  ariaLabel : Option String
deriving DecidableEq

/-- One `<td>` cell: its `.text` and its first `<a>` element, if any. -/
structure Cell where
  text : String
  link : Option AnchorEl
deriving DecidableEq

/-- One `<tr>` table row: its `<td>` cells in DOM order. -/
structure HtmlRow where
  cells : List Cell
deriving DecidableEq

/-- The `EarningsEvent` dataclass (src/scraper.py:34-53).  The
`scraped_timestamp` is set by `__post_init__` to the creation time; the
model threads the current time in as an explicit `now` argument. -/
structure EarningsEvent where
  symbol : String
  company_name : String
  earnings_date : String
  earnings_time : String
  eps_estimate : Option PyNum
  revenue_estimate : Option String
  market_cap : Option String
  sector : Option String
  scraped_timestamp : Option String
deriving DecidableEq

/-- Python's `str.strip()` as a `String → String` function (kernel-
evaluable, unlike `String.trim`). -/
def pyStrip (s : String) : String := ⟨trimChars s.data⟩

/-- Python's `a or b` for an optional string `a` used as a string:
`None` and the empty string are falsy and fall through to `b`. -/
def pyOrStr (a : Option String) (b : String) : String :=
  match a with
  | some s => if s = "" then b else s
  | none => b

/-- `EarningsCalendarScraper._parse_earnings_row` (src/scraper.py:302-357).
Fewer than 4 cells gives `None`; a whitespace-only first cell gives
`None`; the company name prefers the cell's link `title`, then
`aria-label`, then the symbol text (Python `or` chain, so empty-string
attributes also fall through); cell 1 is the trimmed earnings time,
cell 2 goes through the Financial Number Parser, cell 3 is the revenue
text unless it is the literal `"N/A"`.  Under the `len(cells) < 4` guard
the source's `len(cells) > 1/2/3` guards are all true, so the four-cell
pattern match is exhaustive for the non-`None` branch.  The body's
catch-all `except` cannot fire in the model because every cell access is
a total data read, matching the Python body whose DOM reads are the only
raising operations. -/
def parse_earnings_row (row : HtmlRow) (date : String) (now : String) :
    Option EarningsEvent :=
  match row.cells with
  | c0 :: c1 :: c2 :: c3 :: _ =>
    let symbol := pyStrip c0.text
    if symbol = "" then none
    else
      let company_name :=
        match c0.link with
        | some a => pyOrStr a.title (pyOrStr a.ariaLabel symbol)
        | none => symbol
      let earnings_time := pyStrip c1.text
      let eps_estimate := parse_financial_number (pyStrip c2.text)
      let revenue_text := pyStrip c3.text
      let revenue_estimate := if revenue_text ≠ "N/A" then some revenue_text else none
      some
        { symbol := symbol
          company_name := company_name
          earnings_date := date
          earnings_time := earnings_time
          eps_estimate := eps_estimate
          revenue_estimate := revenue_estimate
          market_cap := none
          sector := none
          scraped_timestamp := some now }
  | _ => none

/-! ## Page Scraper

`scrape_yahoo_earnings_calendar` (src/scraper.py:227-300).  The external
interactions are modelled by a `PageFetch` oracle describing what the
navigation and table lookup produced for the target date; the call
`self._parse_earnings_row(row, target_date)` is a parameter of type
`HtmlRow → Except Unit (Option EarningsEvent)` because the per-row
`try/except` in the source guards against that call raising. -/

/-- Outcome of the page-level external interactions for one date:
an exception raised during navigation or row fetching (`exn`, with
`isTimeout = true` for a `TimeoutException`), no table matching any
selector (`noTable`), or the table's rows in DOM order (`rows`).  Every
raising operation of the source's outer `try` block precedes the first
`events.append`, so an exception always finds `events` still empty. -/
inductive PageFetch where
  | exn (isTimeout : Bool)
  | noTable
  | rows (rs : List HtmlRow)
deriving DecidableEq

/-- What one page scrape returns and adds to the session stats:
the returned event list and the increments applied to `pages_scraped`,
`events_found` and `errors_encountered`. -/
structure PageResult where
  events : List EarningsEvent
  pagesInc : Nat
  eventsInc : Nat
  errorsInc : Nat
deriving DecidableEq

/-- The data-row loop of the Page Scraper (src/scraper.py:275-285): each
row's parse either raises (`.error`, caught and counted in
`errors_encountered`, then `continue`), returns no event (`.ok none`,
skipped silently), or returns an event (appended).  Returns the events in
row order together with the number of errors counted. -/
def processDataRows (p : HtmlRow → Except Unit (Option EarningsEvent)) :
    List HtmlRow → List EarningsEvent × Nat
  | [] => ([], 0)
  | r :: rs =>
    let rec' := processDataRows p rs
    match p r with
    | .error _ => (rec'.1, rec'.2 + 1)
    | .ok none => (rec'.1, rec'.2)
    | .ok (some e) => (e :: rec'.1, rec'.2)

/-- `EarningsCalendarScraper.scrape_yahoo_earnings_calendar`
(src/scraper.py:227-300) for one target date, over the fetch oracle:
a timeout gives the empty list with no stats change; any other exception
gives the empty list and one error counted; no matching table gives the
empty list with no stats change (the early `return events`); otherwise
the first row is dropped as the header when more than one row exists
(`rows[1:] if len(rows) > 1 else []`), the data rows are processed, and
`pages_scraped`/`events_found` are updated.  The post-scrape mouse
movement swallows its own failures and changes no observable state. -/
def scrape_yahoo_earnings_calendar
    (p : HtmlRow → Except Unit (Option EarningsEvent)) (fetch : PageFetch) :
    PageResult :=
  match fetch with
  | .exn true => ⟨[], 0, 0, 0⟩
  | .exn false => ⟨[], 0, 0, 1⟩
  | .noTable => ⟨[], 0, 0, 0⟩
  | .rows rs =>
    let dataRows := if rs.length > 1 then rs.drop 1 else []
    let pr := processDataRows p dataRows
    ⟨pr.1, 1, pr.1.length, pr.2⟩

/-- The Row Parser as the Page Scraper invokes it: a plain call that
returns normally (the source's `_parse_earnings_row` catches every
exception internally and so never raises into the loop). -/
def rowParseFn (date : String) (now : String) :
    HtmlRow → Except Unit (Option EarningsEvent) :=
  fun r => .ok (parse_earnings_row r date now)

/-! ## Enrichment Step

`enrich_with_company_details` (src/scraper.py:390-427) visits one profile
page per event for the first `max_enrich` events and mutates at most the
`sector` and `market_cap` fields in place.  In-place mutation is modelled
functionally: the returned list is the input list with the first
`max_enrich` elements passed through `applyEnrich`.  The per-event
external interactions are an `EnrichFetch` oracle. -/

/-- Outcome of the per-symbol profile-page interactions: `navOk = false`
models `driver.get`/the first delay raising (caught by the per-event
`except`, leaving the event untouched); `sector` is the text of the
`SECTOR` element if found (`none` models `NoSuchElementException`,
passed over); `mcExn` models an unexpected exception between the two
lookups (caught by the per-event `except`, so `market_cap` is not
reached); `marketCap` is the text of the `MARKET_CAP-value` element if
found. -/
structure EnrichFetch where
  navOk : Bool
  sector : Option String
  mcExn : Bool
  marketCap : Option String
deriving DecidableEq

/-- The body of the per-event loop of `enrich_with_company_details`:
only `sector` and `market_cap` are ever assigned, each to the stripped
text of the found element. -/
def applyEnrich (o : EnrichFetch) (e : EarningsEvent) : EarningsEvent :=
  if o.navOk then
    let e1 :=
      match o.sector with
      | some s => { e with sector := some (pyStrip s) }
      | none => e
    if o.mcExn then e1
    else
      match o.marketCap with
      | some m => { e1 with market_cap := some (pyStrip m) }
      | none => e1
  else e

/-- The loop `for event in events[:max_enrich]` with the running index
`i`: events at positions below `maxEnrich` are enriched, later ones are
returned untouched. -/
def enrichFrom (orc : Nat → EnrichFetch) (maxEnrich : Nat) :
    Nat → List EarningsEvent → List EarningsEvent
  | _, [] => []
  | i, e :: es =>
      (if i < maxEnrich then applyEnrich (orc i) e else e) ::
        enrichFrom orc maxEnrich (i + 1) es

/-- `EarningsCalendarScraper.enrich_with_company_details`
(src/scraper.py:390-427): returns the same event list with the first
`maxEnrich` events possibly enriched in place (the source's default for
`max_enrich` is `10`, used at the orchestrator's call site). -/
def enrich_with_company_details (orc : Nat → EnrichFetch)
    (events : List EarningsEvent) (maxEnrich : Nat) : List EarningsEvent :=
  enrichFrom orc maxEnrich 0 events

/-! ## Multi-Day Orchestrator

`run_multi_day_scrape` (src/scraper.py:429-492).  Dates are modelled as
day numbers counted from a fixed Monday epoch, so that
`datetime.weekday()` is `d % 7` (Monday = 0) and `timedelta(days=1)` is
`d + 1` — exact for Gregorian calendar arithmetic.  A date is a weekend
day exactly when `d % 7 ≥ 5`.  The oracle supplies the driver
initialization outcome, the per-date page fetch outcome, the per-event
enrichment outcomes, and an optional injected unexpected exception at
orchestrator scope before processing day index `k` (modelling the
claim's counterfactual of a top-level failure; in the source such an
exception is caught by the outer `except` which returns `[]`, and the
`finally` block quits the driver). -/

/-- The external-world oracle for one orchestrator run. -/
structure RunOracle where
  initOk : Bool
  fetch : Nat → PageFetch
  topExnAt : Option Nat
  enrichO : Nat → EnrichFetch

/-- The orchestrator's accumulating state: the `all_events` list, the
trace of dates for which a page request was issued, and the session
stats counters touched by the Page Scraper. -/
structure RunState where
  events : List EarningsEvent
  requests : List Nat
  pages : Nat
  eventsFound : Nat
  errors : Nat
deriving DecidableEq

/-- The state at the start of a run. -/
def initState : RunState := ⟨[], [], 0, 0, 0⟩

/-- The `for day_num in range(days)` loop (src/scraper.py:449-471) over
the list of remaining day indices: a weekday (`weekday < 5`) issues a
page request and accumulates the scrape results; a weekend day is
skipped with no request; an injected orchestrator-scope exception
aborts the loop carrying the state accumulated so far (`.error`).
The inter-page delay changes no observable state. -/
def runDays (o : RunOracle) (p : HtmlRow → Except Unit (Option EarningsEvent))
    (start : Nat) : List Nat → RunState → Except RunState RunState
  | [], st => .ok st
  | i :: rest, st =>
    if o.topExnAt = some i then .error st
    else
      let d := start + i
      if d % 7 < 5 then
        let pr := scrape_yahoo_earnings_calendar p (o.fetch d)
        runDays o p start rest
          ⟨st.events ++ pr.events, st.requests ++ [d], st.pages + pr.pagesInc,
            st.eventsFound + pr.eventsInc, st.errors + pr.errorsInc⟩
      else runDays o p start rest st

/-- The observable outcome of one orchestrator run: the returned list,
the page-request trace, the final stats counters, and whether the
`finally` block released the driver (`driver.quit()`; when driver
initialization failed, `self.driver` is still `None` and no quit
happens). -/
structure RunOutcome where
  result : List EarningsEvent
  requests : List Nat
  pages : Nat
  eventsFound : Nat
  errors : Nat
  driverReleased : Bool
deriving DecidableEq

/-- `EarningsCalendarScraper.run_multi_day_scrape` (src/scraper.py:429-492):
failed driver initialization re-raises into the outer `except`, which
returns `[]` (no driver to release); an orchestrator-scope exception
mid-loop is caught by the same `except`, which returns `[]`, discarding
the accumulated events (the `finally` still quits the driver); a normal
run optionally enriches (`if enrich_data and all_events`, with the
default cap `10`) and returns the accumulated events. -/
def run_multi_day_scrape (o : RunOracle)
    (p : HtmlRow → Except Unit (Option EarningsEvent))
    (start days : Nat) (enrich_data : Bool) : RunOutcome :=
  if o.initOk then
    match runDays o p start (List.range days) initState with
    | .error st => ⟨[], st.requests, st.pages, st.eventsFound, st.errors, true⟩
    | .ok st =>
      let all_events :=
        if enrich_data && !st.events.isEmpty then
          enrich_with_company_details o.enrichO st.events 10
        else st.events
      ⟨all_events, st.requests, st.pages, st.eventsFound, st.errors, true⟩
  else ⟨[], [], 0, 0, 0, false⟩

/-! ## Summary report -/

/-- Observable outcome of `generate_summary_report`: the early-return
error dictionary `{"error": msg}`, or an exception escaping the
aggregation block. -/
inductive ReportOutcome where
  | errorDict (msg : String)
  | raised (msg : String)
deriving DecidableEq

/-- `EarningsCalendarScraper.generate_summary_report`
(src/scraper.py:559-581): with no scraped events it returns the
dictionary `{"error": "No data to analyze"}` before touching pandas.
With a non-empty event list it builds a DataFrame (which always has a
`market_cap` column, since `asdict` lists every dataclass field, with
`Optional[str]` values and hence object dtype) and evaluates the report
dictionary; its last entry calls `df.nlargest(10, 'market_cap')`, which
raises `TypeError` for a non-numeric column, so the earlier aggregations
are computed and then discarded and the non-empty branch always raises —
modelled extensionally as `.raised`. -/
def generate_summary_report (scraped_events : List EarningsEvent) : ReportOutcome :=
  if scraped_events.isEmpty then .errorDict "No data to analyze"
  else .raised "TypeError: Column 'market_cap' has dtype object, cannot use method 'nlargest' with this dtype"

/-! ## Theorems -/

/-- C10: with an empty scraped-event list, `generate_summary_report`
returns the dictionary `{"error": "No data to analyze"}` — an
error-shaped value, not a zero-count summary. -/
theorem C10_empty_report_is_error :
    generate_summary_report [] = .errorDict "No data to analyze" := rfl

/-- C5: a navigation timeout (`isTimeout = true`) or any other unexpected
page-level exception (`isTimeout = false`) is absorbed inside
`scrape_yahoo_earnings_calendar`: the result for that date is the empty
event list (with one error counted for a non-timeout exception), and
nothing propagates — the function returns a `PageResult` for every
outcome, so the orchestrator can continue with the next date. -/
theorem C5_page_exception_yields_empty :
    ∀ (p : HtmlRow → Except Unit (Option EarningsEvent)) (isTimeout : Bool),
      scrape_yahoo_earnings_calendar p (.exn isTimeout) =
        ⟨[], 0, 0, if isTimeout then 0 else 1⟩ := by
  intro p isTimeout
  cases isTimeout <;> rfl

/-- C1 fails as stated: on the input `"inf"` the Financial Number Parser
returns Python's `float("inf")` — a value that is neither `None` nor a
finite number. -/
theorem C1_counterexample :
    parse_financial_number "inf" = some PyNum.inf ∧
      PyNum.isFinite PyNum.inf = false := by
  constructor
  · decide
  · rfl

/-- C1 (amended): for every string input the Financial Number Parser is
pure and total and never raises, returning either a float value or
`None`; the float is not always finite — the inputs `"inf"`,
`"-Infinity"` and `"nan"` produce IEEE infinities and NaN. -/
theorem C1_amended_total :
    (∀ s : String, parse_financial_number s = none ∨
        ∃ v : PyNum, parse_financial_number s = some v) ∧
      parse_financial_number "inf" = some PyNum.inf ∧
      parse_financial_number "-Infinity" = some PyNum.ninf ∧
      parse_financial_number "nan" = some PyNum.nan := by
  refine ⟨fun s => ?_, by decide, by decide, by decide⟩
  cases h : parse_financial_number s with
  | none => exact Or.inl rfl
  | some v => exact Or.inr ⟨v, rfl⟩

/-- C2: the Financial Number Parser's rules, in order.  Any input whose
upper-cased text is a "not available" token gives `None` (and trimmed,
case-varied forms of the tokens also give `None`, through the final
`ValueError` fallback); currency symbols and thousands separators are
stripped; a parenthesized value is negated; a trailing case-insensitive
`B`/`M`/`K` multiplies by `1e9`/`1e6`/`1e3`; remaining text that is not a
decimal number gives `None`. -/
theorem C2_rules_in_order :
    (∀ s : String, upperChars s.data ∈ naTokens → parse_financial_number s = none) ∧
      parse_financial_number "n/a" = none ∧
      parse_financial_number " N/A " = none ∧
      parse_financial_number " tbd " = none ∧
      parse_financial_number "--" = none ∧
      parse_financial_number "" = none ∧
      parse_financial_number "$1.23" = some (.finite (mkRat 123 100)) ∧
      parse_financial_number "$1,234.56" = some (.finite (mkRat 123456 100)) ∧
      parse_financial_number "(1.23)" = some (.finite (mkRat (-123) 100)) ∧
      parse_financial_number "1.5B" = some (.finite 1500000000) ∧
      parse_financial_number "2.5b" = some (.finite 2500000000) ∧
      parse_financial_number "1.5M" = some (.finite 1500000) ∧
      parse_financial_number "3k" = some (.finite 3000) ∧
      parse_financial_number "abc" = none ∧
      parse_financial_number "1.2.3" = none ∧
      parse_financial_number "12..5" = none := by
  refine ⟨fun s h => ?_, by decide, by decide, by decide, by decide, by decide,
    by decide, by decide, by decide, by decide, by decide, by decide, by decide,
    by decide, by decide, by decide⟩
  unfold parse_financial_number
  simp [h]

/-- Witness for the universal part of `C2_rules_in_order` at the concrete
input `"N/A"`. -/
theorem C2_rules_in_order_witness :
    upperChars "N/A".data ∈ naTokens ∧ parse_financial_number "N/A" = none :=
  ⟨by decide, C2_rules_in_order.1 "N/A" (by decide)⟩

/-- C3: the Row Parser returns no event for a row with fewer than 4
cells and for a row whose first cell's trimmed text is empty; it never
raises (it is a total function), and such a skipped row contributes
neither an event nor an error increment to the page loop. -/
theorem C3_short_or_blank_rows_skipped :
    ∀ (row : HtmlRow) (date now : String),
      (row.cells.length < 4 → parse_earnings_row row date now = none) ∧
      (∀ c cs, row.cells = c :: cs → pyStrip c.text = "" →
        parse_earnings_row row date now = none) ∧
      (∀ rows, parse_earnings_row row date now = none →
        processDataRows (rowParseFn date now) (row :: rows) =
          processDataRows (rowParseFn date now) rows) := by
  intro row date now
  obtain ⟨cells⟩ := row
  refine ⟨?_, ?_, ?_⟩
  · intro h
    rcases cells with _ | ⟨a, _ | ⟨b, _ | ⟨c, _ | ⟨d, rest⟩⟩⟩⟩
    · rfl
    · rfl
    · rfl
    · rfl
    · exfalso
      simp [List.length_cons] at h
      omega
  · intro c cs hc hempty
    cases hc
    rcases cs with _ | ⟨b, _ | ⟨c2, _ | ⟨d, rest⟩⟩⟩
    · rfl
    · rfl
    · rfl
    · simp [parse_earnings_row, hempty]
  · intro rows h
    simp [processDataRows, rowParseFn, h]

/-- Witness for `C3_short_or_blank_rows_skipped`: a 1-cell row and a
4-cell row with a whitespace-only first cell are both skipped, and the
1-cell row contributes nothing to the page loop. -/
theorem C3_short_or_blank_rows_skipped_witness :
    ([(⟨"X", none⟩ : Cell)] : List Cell).length < 4 ∧
      parse_earnings_row ⟨[⟨"X", none⟩]⟩ "d" "t" = none ∧
      pyStrip " " = "" ∧
      parse_earnings_row ⟨[⟨" ", none⟩, ⟨"a", none⟩, ⟨"b", none⟩, ⟨"c", none⟩]⟩
        "d" "t" = none ∧
      processDataRows (rowParseFn "d" "t") [⟨[⟨"X", none⟩]⟩] =
        processDataRows (rowParseFn "d" "t") [] :=
  ⟨by decide,
    (C3_short_or_blank_rows_skipped ⟨[⟨"X", none⟩]⟩ "d" "t").1 (by decide),
    by decide,
    (C3_short_or_blank_rows_skipped
        ⟨[⟨" ", none⟩, ⟨"a", none⟩, ⟨"b", none⟩, ⟨"c", none⟩]⟩ "d" "t").2.1
      ⟨" ", none⟩ [⟨"a", none⟩, ⟨"b", none⟩, ⟨"c", none⟩] rfl (by decide),
    (C3_short_or_blank_rows_skipped ⟨[⟨"X", none⟩]⟩ "d" "t").2.2 []
      ((C3_short_or_blank_rows_skipped ⟨[⟨"X", none⟩]⟩ "d" "t").1 (by decide))⟩

/-- The page loop distributes over list append: events concatenate and
error counts add. -/
theorem processDataRows_append
    (p : HtmlRow → Except Unit (Option EarningsEvent)) (a b : List HtmlRow) :
    processDataRows p (a ++ b) =
      ((processDataRows p a).1 ++ (processDataRows p b).1,
        (processDataRows p a).2 + (processDataRows p b).2) := by
  induction a with
  | nil => simp [processDataRows]
  | cons r a ih =>
    cases h : p r with
    | error u => simp [processDataRows, h, ih]; omega
    | ok oe =>
      cases oe with
      | none => simp [processDataRows, h, ih]
      | some e => simp [processDataRows, h, ih]

/-- A run of rows on which the parse call returns an event each gives
exactly those events and no errors. -/
theorem processDataRows_all_ok
    (p : HtmlRow → Except Unit (Option EarningsEvent))
    (f : HtmlRow → EarningsEvent) :
    ∀ l : List HtmlRow, (∀ x ∈ l, p x = .ok (some (f x))) →
      processDataRows p l = (l.map f, 0) := by
  intro l
  induction l with
  | nil => intro _; rfl
  | cons r rs ih =>
    intro h
    have hr := h r (List.mem_cons_self r rs)
    have hrest := ih (fun x hx => h x (List.mem_cons_of_mem r hx))
    simp [processDataRows, hr, hrest]

/-- C6: if the Row Parser call raises for exactly one data row out of
`N` on a page (every other data row parsing to a valid event), the Page
Scraper still returns the other `N − 1` events in order, counts exactly
one error, and finishes the page normally. -/
theorem C6_one_bad_row_is_contained
    (p : HtmlRow → Except Unit (Option EarningsEvent))
    (f : HtmlRow → EarningsEvent) (header bad : HtmlRow)
    (rows₁ rows₂ : List HtmlRow)
    (hok : ∀ x ∈ rows₁ ++ rows₂, p x = .ok (some (f x)))
    (hbad : p bad = .error ()) :
    scrape_yahoo_earnings_calendar p (.rows (header :: (rows₁ ++ bad :: rows₂))) =
      ⟨rows₁.map f ++ rows₂.map f, 1, rows₁.length + rows₂.length, 1⟩ := by
  have h₁ : ∀ x ∈ rows₁, p x = .ok (some (f x)) := by
    intro x hx
    exact hok x (List.mem_append_left _ hx)
  have h₂ : ∀ x ∈ rows₂, p x = .ok (some (f x)) := by
    intro x hx
    exact hok x (List.mem_append_right _ hx)
  have hmid : processDataRows p (bad :: rows₂) = (rows₂.map f, 1) := by
    simp [processDataRows, hbad, processDataRows_all_ok p f rows₂ h₂]
  have hall : processDataRows p (rows₁ ++ bad :: rows₂) =
      (rows₁.map f ++ rows₂.map f, 1) := by
    rw [processDataRows_append, hmid, processDataRows_all_ok p f rows₁ h₁]
    simp
  simp [scrape_yahoo_earnings_calendar, hall]

/-- Witness for `C6_one_bad_row_is_contained`: a 4-row table (1 header +
3 data rows) where the middle data row's parse raises gives 2 events and
1 error. -/
theorem C6_one_bad_row_is_contained_witness :
    scrape_yahoo_earnings_calendar
        (fun row => if row.cells.isEmpty then .error () else
          .ok (some ⟨"A", "A", "d", "t", none, none, none, none, some "ts"⟩))
        (.rows [⟨[⟨"h", none⟩]⟩, ⟨[⟨"x", none⟩]⟩, ⟨[]⟩, ⟨[⟨"y", none⟩]⟩]) =
      ⟨[⟨"A", "A", "d", "t", none, none, none, none, some "ts"⟩,
        ⟨"A", "A", "d", "t", none, none, none, none, some "ts"⟩], 1, 2, 1⟩ :=
  C6_one_bad_row_is_contained
    (fun row => if row.cells.isEmpty then .error () else
      .ok (some ⟨"A", "A", "d", "t", none, none, none, none, some "ts"⟩))
    (fun _ => ⟨"A", "A", "d", "t", none, none, none, none, some "ts"⟩)
    ⟨[⟨"h", none⟩]⟩ ⟨[]⟩ [⟨[⟨"x", none⟩]⟩] [⟨[⟨"y", none⟩]⟩]
    (by
      intro x hx
      simp at hx
      rcases hx with rfl | rfl <;> rfl)
    (by rfl)

/-- C7: the Page Scraper skips the first enumerated row as a header
whenever more than one row exists — the result does not depend on the
header row's content — and in the concrete 5-row scenario (1 header plus
4 data rows, the third data row having only 2 cells) it returns exactly
3 events and counts 0 errors; the header row here has 4 parseable cells,
so the 3-event result also shows it was dropped rather than parsed. -/
theorem C7_header_skipped_scenario :
    (∀ (p : HtmlRow → Except Unit (Option EarningsEvent)) (h₁ h₂ r : HtmlRow)
        (rs : List HtmlRow),
      scrape_yahoo_earnings_calendar p (.rows (h₁ :: r :: rs)) =
        scrape_yahoo_earnings_calendar p (.rows (h₂ :: r :: rs))) ∧
    scrape_yahoo_earnings_calendar (rowParseFn "2024-01-08" "t0")
        (.rows
          [⟨[⟨"Symbol", none⟩, ⟨"Earnings Date", none⟩, ⟨"EPS Estimate", none⟩,
              ⟨"Revenue", none⟩]⟩,
            ⟨[⟨"AAPL", some ⟨some "Apple Inc.", none⟩⟩, ⟨"AMC", none⟩,
              ⟨"1.39", none⟩, ⟨"117.9B", none⟩]⟩,
            ⟨[⟨"MSFT", none⟩, ⟨"BMO", none⟩, ⟨"N/A", none⟩, ⟨"N/A", none⟩]⟩,
            ⟨[⟨"oops", none⟩, ⟨"x", none⟩]⟩,
            ⟨[⟨"TSLA", some ⟨none, some "Tesla, Inc."⟩⟩, ⟨"TBD", none⟩,
              ⟨"0.73", none⟩, ⟨"25,167M", none⟩]⟩]) =
      ⟨[⟨"AAPL", "Apple Inc.", "2024-01-08", "AMC",
          some (.finite (mkRat 139 100)), some "117.9B", none, none, some "t0"⟩,
        ⟨"MSFT", "MSFT", "2024-01-08", "BMO", none, none, none, none, some "t0"⟩,
        ⟨"TSLA", "Tesla, Inc.", "2024-01-08", "TBD",
          some (.finite (mkRat 73 100)), some "25,167M", none, none, some "t0"⟩],
        1, 3, 0⟩ := by
  constructor
  · intro p h₁ h₂ r rs
    simp [scrape_yahoo_earnings_calendar]
  · decide

/-- The per-event enrichment body only ever assigns the `sector` and
`market_cap` fields: every other field is unchanged whatever the
profile-page interactions produced. -/
theorem applyEnrich_frame (o : EnrichFetch) (e : EarningsEvent) :
    (applyEnrich o e).symbol = e.symbol ∧
      (applyEnrich o e).company_name = e.company_name ∧
      (applyEnrich o e).earnings_date = e.earnings_date ∧
      (applyEnrich o e).earnings_time = e.earnings_time ∧
      (applyEnrich o e).eps_estimate = e.eps_estimate ∧
      (applyEnrich o e).revenue_estimate = e.revenue_estimate ∧
      (applyEnrich o e).scraped_timestamp = e.scraped_timestamp := by
  obtain ⟨nav, sec, mcx, mc⟩ := o
  rcases nav <;> rcases sec <;> rcases mcx <;> rcases mc <;> simp [applyEnrich]

/-- Element-wise description of the enrichment loop: position `i` of the
output is position `i` of the input, passed through `applyEnrich` exactly
when its running index is below the cap. -/
theorem enrichFrom_getElem? (orc : Nat → EnrichFetch) (maxE : Nat) :
    ∀ (l : List EarningsEvent) (j i : Nat),
      (enrichFrom orc maxE j l)[i]? =
        (l[i]?).map
          (fun e => if j + i < maxE then applyEnrich (orc (j + i)) e else e) := by
  intro l
  induction l with
  | nil => intro j i; rfl
  | cons e es ih =>
    intro j i
    cases i with
    | zero => simp [enrichFrom]
    | succ i =>
      have harith : j + 1 + i = j + (i + 1) := by omega
      simp [enrichFrom, ih (j + 1) i, harith]

/-- The enrichment loop preserves the length of the event list. -/
theorem enrichFrom_length (orc : Nat → EnrichFetch) (maxE : Nat) :
    ∀ (l : List EarningsEvent) (j : Nat),
      (enrichFrom orc maxE j l).length = l.length := by
  intro l
  induction l with
  | nil => intro j; rfl
  | cons e es ih => intro j; simp [enrichFrom, ih (j + 1)]

/-- Any field-projection that `applyEnrich` preserves is preserved at
every position of the enriched list. -/
theorem enrich_field_preserved {α : Type} (orc : Nat → EnrichFetch)
    (events : List EarningsEvent) (maxE : Nat) (g : EarningsEvent → α)
    (hg : ∀ o e, g (applyEnrich o e) = g e) (i : Nat) :
    ((enrich_with_company_details orc events maxE)[i]?).map g =
      (events[i]?).map g := by
  unfold enrich_with_company_details
  rw [enrichFrom_getElem? orc maxE events 0 i]
  cases events[i]? with
  | none => rfl
  | some e =>
    by_cases hlt : i < maxE
    · simp [hlt, hg]
    · simp [hlt]

/-- C9: enrichment returns a list of the same length in which only the
first `max_enrich` events can differ from the input — and even those
only in their `sector` and `market_cap` fields: at every position the
`symbol`, `company_name`, `earnings_date`, `earnings_time`,
`eps_estimate`, `revenue_estimate` and `scraped_timestamp` fields are
unchanged, and every event at position `max_enrich` or beyond is
entirely unchanged.  (The orchestrator's call site uses the source's
default cap of 10.) -/
theorem C9_enrichment_frame :
    ∀ (orc : Nat → EnrichFetch) (events : List EarningsEvent) (maxEnrich : Nat),
      (enrich_with_company_details orc events maxEnrich).length = events.length ∧
      (∀ i : Nat, maxEnrich ≤ i →
        (enrich_with_company_details orc events maxEnrich)[i]? = events[i]?) ∧
      (∀ i : Nat,
        ((enrich_with_company_details orc events maxEnrich)[i]?).map
            EarningsEvent.symbol = (events[i]?).map EarningsEvent.symbol ∧
        ((enrich_with_company_details orc events maxEnrich)[i]?).map
            EarningsEvent.company_name =
          (events[i]?).map EarningsEvent.company_name ∧
        ((enrich_with_company_details orc events maxEnrich)[i]?).map
            EarningsEvent.earnings_date =
          (events[i]?).map EarningsEvent.earnings_date ∧
        ((enrich_with_company_details orc events maxEnrich)[i]?).map
            EarningsEvent.earnings_time =
          (events[i]?).map EarningsEvent.earnings_time ∧
        ((enrich_with_company_details orc events maxEnrich)[i]?).map
            EarningsEvent.eps_estimate =
          (events[i]?).map EarningsEvent.eps_estimate ∧
        ((enrich_with_company_details orc events maxEnrich)[i]?).map
            EarningsEvent.revenue_estimate =
          (events[i]?).map EarningsEvent.revenue_estimate ∧
        ((enrich_with_company_details orc events maxEnrich)[i]?).map
            EarningsEvent.scraped_timestamp =
          (events[i]?).map EarningsEvent.scraped_timestamp) := by
  intro orc events maxEnrich
  refine ⟨enrichFrom_length orc maxEnrich events 0, ?_, ?_⟩
  · intro i hi
    unfold enrich_with_company_details
    rw [enrichFrom_getElem? orc maxEnrich events 0 i]
    cases events[i]? with
    | none => rfl
    | some e =>
      have : ¬ i < maxEnrich := by omega
      simp [this]
  · intro i
    exact ⟨enrich_field_preserved orc events maxEnrich _
        (fun o e => (applyEnrich_frame o e).1) i,
      enrich_field_preserved orc events maxEnrich _
        (fun o e => (applyEnrich_frame o e).2.1) i,
      enrich_field_preserved orc events maxEnrich _
        (fun o e => (applyEnrich_frame o e).2.2.1) i,
      enrich_field_preserved orc events maxEnrich _
        (fun o e => (applyEnrich_frame o e).2.2.2.1) i,
      enrich_field_preserved orc events maxEnrich _
        (fun o e => (applyEnrich_frame o e).2.2.2.2.1) i,
      enrich_field_preserved orc events maxEnrich _
        (fun o e => (applyEnrich_frame o e).2.2.2.2.2.1) i,
      enrich_field_preserved orc events maxEnrich _
        (fun o e => (applyEnrich_frame o e).2.2.2.2.2.2) i⟩

/-- Witness for `C9_enrichment_frame`: with a cap of 1, the second event
of a two-event list is returned entirely unchanged. -/
theorem C9_enrichment_frame_witness :
    (1 : Nat) ≤ 1 ∧
      (enrich_with_company_details (fun _ => ⟨true, some " Tech ", false, some "3T"⟩)
          [⟨"A", "A", "d", "t", none, none, none, none, some "ts"⟩,
            ⟨"B", "B", "d", "t", none, none, none, none, some "ts"⟩] 1)[1]? =
        ([⟨"A", "A", "d", "t", none, none, none, none, some "ts"⟩,
            ⟨"B", "B", "d", "t", none, none, none, none, some "ts"⟩] :
          List EarningsEvent)[1]? :=
  ⟨by decide,
    (C9_enrichment_frame (fun _ => ⟨true, some " Tech ", false, some "3T"⟩)
        [⟨"A", "A", "d", "t", none, none, none, none, some "ts"⟩,
          ⟨"B", "B", "d", "t", none, none, none, none, some "ts"⟩] 1).2.1 1
      (by decide)⟩

/-- Unfolding equation for one step of the day loop. -/
theorem runDays_cons (o : RunOracle)
    (p : HtmlRow → Except Unit (Option EarningsEvent)) (start i : Nat)
    (rest : List Nat) (st : RunState) :
    runDays o p start (i :: rest) st =
      if o.topExnAt = some i then .error st
      else if (start + i) % 7 < 5 then
        runDays o p start rest
          ⟨st.events ++ (scrape_yahoo_earnings_calendar p (o.fetch (start + i))).events,
            st.requests ++ [start + i],
            st.pages + (scrape_yahoo_earnings_calendar p (o.fetch (start + i))).pagesInc,
            st.eventsFound + (scrape_yahoo_earnings_calendar p (o.fetch (start + i))).eventsInc,
            st.errors + (scrape_yahoo_earnings_calendar p (o.fetch (start + i))).errorsInc⟩
      else runDays o p start rest st := rfl

/-- With no orchestrator-scope exception, the day loop finishes normally
and its page-request trace grows by exactly the weekday dates of the
processed day indices, in order. -/
theorem runDays_requests_of_no_exn (o : RunOracle)
    (p : HtmlRow → Except Unit (Option EarningsEvent)) (start : Nat)
    (hx : o.topExnAt = none) :
    ∀ (l : List Nat) (st : RunState), ∃ st' : RunState,
      runDays o p start l st = .ok st' ∧
      st'.requests =
        st.requests ++ (l.map (start + ·)).filter (fun d => d % 7 < 5) := by
  intro l
  induction l with
  | nil => intro st; exact ⟨st, rfl, by simp⟩
  | cons i rest ih =>
    intro st
    rw [runDays_cons, if_neg (by simp [hx])]
    by_cases hwd : (start + i) % 7 < 5
    · rw [if_pos hwd]
      obtain ⟨st', heq, hreq⟩ := ih
        ⟨st.events ++ (scrape_yahoo_earnings_calendar p (o.fetch (start + i))).events,
          st.requests ++ [start + i],
          st.pages + (scrape_yahoo_earnings_calendar p (o.fetch (start + i))).pagesInc,
          st.eventsFound + (scrape_yahoo_earnings_calendar p (o.fetch (start + i))).eventsInc,
          st.errors + (scrape_yahoo_earnings_calendar p (o.fetch (start + i))).errorsInc⟩
      refine ⟨st', heq, ?_⟩
      rw [hreq]
      simp [hwd]
    · rw [if_neg hwd]
      obtain ⟨st', heq, hreq⟩ := ih st
      refine ⟨st', heq, ?_⟩
      rw [hreq]
      simp [hwd]

/-- C8: in a run with a working driver and no orchestrator-scope
failure, the trace of dates for which a page request is issued is
exactly the weekday dates of the covered range, in ascending calendar
order: no Saturday/Sunday date (`d % 7 ≥ 5` from the Monday epoch) is
ever requested, every weekday date of the range is requested, and the
trace is strictly increasing.  The enrichment flag does not affect the
trace. -/
theorem C8_business_days_ascending :
    ∀ (o : RunOracle) (p : HtmlRow → Except Unit (Option EarningsEvent))
      (start days : Nat) (enrich_data : Bool),
      o.initOk = true → o.topExnAt = none →
      (run_multi_day_scrape o p start days enrich_data).requests =
          ((List.range days).map (start + ·)).filter (fun d => d % 7 < 5) ∧
      (∀ d ∈ (run_multi_day_scrape o p start days enrich_data).requests,
        d % 7 < 5) ∧
      (∀ d : Nat, start ≤ d → d < start + days → d % 7 < 5 →
        d ∈ (run_multi_day_scrape o p start days enrich_data).requests) ∧
      List.Pairwise (· < ·) (run_multi_day_scrape o p start days enrich_data).requests := by
  intro o p start days enrich_data h1 h2
  obtain ⟨st', heq, hreq⟩ :=
    runDays_requests_of_no_exn o p start h2 (List.range days) initState
  have hrun : (run_multi_day_scrape o p start days enrich_data).requests =
      ((List.range days).map (start + ·)).filter (fun d => d % 7 < 5) := by
    unfold run_multi_day_scrape
    rw [if_pos h1, heq]
    simpa [initState] using hreq
  have hmem : ∀ d : Nat,
      d ∈ ((List.range days).map (start + ·)).filter (fun d => d % 7 < 5) ↔
        (start ≤ d ∧ d < start + days ∧ d % 7 < 5) := by
    intro d
    simp only [List.mem_filter, List.mem_map, List.mem_range, decide_eq_true_eq]
    constructor
    · rintro ⟨⟨i, hi, rfl⟩, hp⟩
      omega
    · rintro ⟨hle, hlt, hp⟩
      exact ⟨⟨d - start, by omega, by omega⟩, hp⟩
  have hsorted : List.Pairwise (· < ·)
      (((List.range days).map (start + ·)).filter (fun d => d % 7 < 5)) :=
    List.Pairwise.filter _
      ((List.pairwise_lt_range days).map _ (fun a b hab => by omega))
  refine ⟨hrun, ?_, ?_, ?_⟩
  · intro d hd
    rw [hrun] at hd
    exact ((hmem d).1 hd).2.2
  · intro d hle hlt hp
    rw [hrun]
    exact (hmem d).2 ⟨hle, hlt, hp⟩
  · rw [hrun]
    exact hsorted

/-- Witness for `C8_business_days_ascending`: a 7-day run from the epoch
Monday requests exactly the five weekday dates. -/
theorem C8_business_days_ascending_witness :
    (run_multi_day_scrape
        ⟨true, fun _ => .noTable, none, fun _ => ⟨false, none, false, none⟩⟩
        (rowParseFn "d" "t") 0 7 false).requests =
      ((List.range 7).map (0 + ·)).filter (fun d => d % 7 < 5) :=
  (C8_business_days_ascending
      ⟨true, fun _ => .noTable, none, fun _ => ⟨false, none, false, none⟩⟩
      (rowParseFn "d" "t") 0 7 false rfl rfl).1

/-- C4 fails as stated: in a concrete 2-day run whose first (Monday)
page yields one event and where an unexpected exception occurs at
orchestrator scope before day 2, the day loop aborts carrying the one
accumulated event, yet `run_multi_day_scrape` returns the empty list,
not the accumulated partial results. -/
theorem C4_counterexample :
    runDays
        ⟨true,
          fun _ => .rows [⟨[⟨"hdr", none⟩]⟩,
            ⟨[⟨"AAPL", none⟩, ⟨"AMC", none⟩, ⟨"1.00", none⟩, ⟨"5B", none⟩]⟩],
          some 1, fun _ => ⟨false, none, false, none⟩⟩
        (rowParseFn "2024-01-08" "t0") 0 [0, 1] initState =
      .error ⟨[⟨"AAPL", "AAPL", "2024-01-08", "AMC", some (.finite 1), some "5B",
          none, none, some "t0"⟩], [0], 1, 1, 0⟩ ∧
    (run_multi_day_scrape
        ⟨true,
          fun _ => .rows [⟨[⟨"hdr", none⟩]⟩,
            ⟨[⟨"AAPL", none⟩, ⟨"AMC", none⟩, ⟨"1.00", none⟩, ⟨"5B", none⟩]⟩],
          some 1, fun _ => ⟨false, none, false, none⟩⟩
        (rowParseFn "2024-01-08" "t0") 0 2 false).result = [] ∧
    (run_multi_day_scrape
        ⟨true,
          fun _ => .rows [⟨[⟨"hdr", none⟩]⟩,
            ⟨[⟨"AAPL", none⟩, ⟨"AMC", none⟩, ⟨"1.00", none⟩, ⟨"5B", none⟩]⟩],
          some 1, fun _ => ⟨false, none, false, none⟩⟩
        (rowParseFn "2024-01-08" "t0") 0 2 false).result ≠
      [⟨"AAPL", "AAPL", "2024-01-08", "AMC", some (.finite 1), some "5B",
          none, none, some "t0"⟩] := by
  refine ⟨rfl, rfl, ?_⟩
  decide

/-- C4 (amended): when an unexpected exception reaches the top level of
`run_multi_day_scrape` after the driver initialized, the method logs and
returns the empty list — discarding whatever events were accumulated so
far — while the stats and request trace reflect the work done and the
`finally` block still releases the driver. -/
theorem C4_amended_top_failure_returns_empty :
    ∀ (o : RunOracle) (p : HtmlRow → Except Unit (Option EarningsEvent))
      (start days : Nat) (enrich_data : Bool) (st : RunState),
      o.initOk = true →
      runDays o p start (List.range days) initState = .error st →
      run_multi_day_scrape o p start days enrich_data =
        ⟨[], st.requests, st.pages, st.eventsFound, st.errors, true⟩ := by
  intro o p start days enrich_data st h1 h2
  unfold run_multi_day_scrape
  rw [if_pos h1, h2]

/-- Witness for `C4_amended_top_failure_returns_empty`: a 1-day run with
the exception injected before day 1 returns the empty outcome with the
driver released. -/
theorem C4_amended_top_failure_returns_empty_witness :
    run_multi_day_scrape
        ⟨true, fun _ => .noTable, some 0, fun _ => ⟨false, none, false, none⟩⟩
        (rowParseFn "d" "t") 0 1 false = ⟨[], [], 0, 0, 0, true⟩ :=
  C4_amended_top_failure_returns_empty
    ⟨true, fun _ => .noTable, some 0, fun _ => ⟨false, none, false, none⟩⟩
    (rowParseFn "d" "t") 0 1 false initState rfl rfl

end EarningsScraper
